import Mathlib

/-!
# Verification of the node-trace event delivery engine

Shallow embedding of the queue subsystem of the node-trace telemetry SDK:
the deduplicator (`src/queue/dedupe.ts`), the priority queue
(`src/queue/priority.ts`), the queue manager (`src/queue/queue.ts`), the
sender (`src/queue/sender.ts`) and the offline store (`src/db.ts`).

Modelling conventions:
* JS `Map` iteration/insertion-order semantics are modelled by an
  association list: `Map.set` of an existing key updates the value in
  place (keeping the key's position), `Map.set` of a new key appends,
  `Map.delete` removes the unique entry, and `keys().next().value` is the
  head of the list.
* JS numbers are modelled as exact rationals (`Rat`) where the code
  multiplies by 0.5/1.5/…, and as `Nat` where the code floors/ceils to an
  integer.  Double rounding (e.g. `20 * 1.2 = 24.000000000000004`) can
  shift a `Math.floor`/`Math.ceil` result by one; none of the statements
  below depend on a value in such a borderline position.
* `async` functions are split at their `await` boundary: the part of
  `flush()` before `await sender.send(...)` runs synchronously (also when
  `push` invokes `flush` on high pressure) and is modelled by `flushCore`;
  the continuation after the `await` is modelled by `flushRun` /
  `handleSendFailure` / `retryFire`, parameterised by the send outcome.
* Environment probes (`isBrowser()`, `navigator` state, transport
  outcomes, `Date.now()`) are passed in explicitly.
* The plugin registry is empty in the modelled runs, so the
  `beforeSend`/`afterSend` hook chains are the identity / a no-op, exactly
  as `applyBeforeSendHooks` computes on an empty `plugins.sort()`.
-/

namespace NodeTrace

/-- An event payload; dedupe/offline identity is `(id, event, timestamp)`.
Mirrors the fields of `Payload` that the queue subsystem reads. -/
structure Event where
  id : String
  event : String
  timestamp : Nat
deriving DecidableEq, Repr

/-- `generateEventKey` from `src/queue/dedupe.ts`:
`${event.id}_${event.event}_${event.timestamp}`. -/
def generateEventKey (e : Event) : String :=
  e.id ++ "_" ++ e.event ++ "_" ++ toString e.timestamp

/-! ## LRUCache (`src/queue/dedupe.ts`)

Backed by a JS `Map`; `entries` holds the map's entries in insertion
order (head = oldest). -/

structure LRUCache (V : Type) where
  entries : List (String × V)
  maxSize : Nat
deriving DecidableEq, Repr

namespace LRUCache

/-- `Map.prototype.has`. -/
def has (c : LRUCache V) (k : String) : Bool :=
  c.entries.any (fun p => p.1 = k)

/-- `Map.prototype.set`: updates an existing key in place (keeping its
position in insertion order) or appends a new key. -/
def mapSet (c : LRUCache V) (k : String) (v : V) : LRUCache V :=
  if c.has k then
    { c with entries := c.entries.map (fun p => if p.1 = k then (k, v) else p) }
  else
    { c with entries := c.entries ++ [(k, v)] }

/-- `Map.prototype.delete` / `LRUCache.delete`. -/
def deleteKey (c : LRUCache V) (k : String) : LRUCache V :=
  { c with entries := c.entries.filter (fun p => ¬ p.1 = k) }

/-- `LRUCache.set`: when the map already holds `maxSize` entries, delete
the first key in insertion order (`this.cache.keys().next().value`),
then `Map.set`. -/
def set (c : LRUCache V) (k : String) (v : V) : LRUCache V :=
  let c1 :=
    if c.maxSize ≤ c.entries.length then
      match c.entries.head? with
      | some p => c.deleteKey p.1
      | none => c
    else c
  c1.mapSet k v

/-- `LRUCache.get`: on a hit, delete and re-insert the key, moving it to
the back of the insertion order (this, and only this, refreshes recency). -/
def get (c : LRUCache V) (k : String) : Option V × LRUCache V :=
  match c.entries.find? (fun p => p.1 = k) with
  | some p => (some p.2, (c.deleteKey k).mapSet k p.2)
  | none => (none, c)

/-- `LRUCache.size`. -/
def size (c : LRUCache V) : Nat :=
  c.entries.length

/-- `LRUCache.clear`. -/
def clear (c : LRUCache V) : LRUCache V :=
  { c with entries := [] }

end LRUCache

/-! ## EventDedupe (`src/queue/dedupe.ts`) -/

structure EventDedupe where
  cache : LRUCache Bool
deriving DecidableEq, Repr

namespace EventDedupe

/-- A fresh deduplicator of capacity `maxSize`. -/
def empty (maxSize : Nat) : EventDedupe :=
  ⟨⟨[], maxSize⟩⟩

/-- `EventDedupe.exists`: a pure membership test via `Map.has`; it does
not change the cache (in particular it does not refresh recency). -/
def existsEvent (d : EventDedupe) (e : Event) : Bool :=
  d.cache.has (generateEventKey e)

/-- `EventDedupe.add`. -/
def add (d : EventDedupe) (e : Event) : EventDedupe :=
  ⟨d.cache.set (generateEventKey e) true⟩

/-- `EventDedupe.remove`. -/
def remove (d : EventDedupe) (e : Event) : EventDedupe :=
  ⟨d.cache.deleteKey (generateEventKey e)⟩

/-- `EventDedupe.removeBatch`: `events.forEach((e) => this.remove(e))`. -/
def removeBatch (d : EventDedupe) (events : List Event) : EventDedupe :=
  events.foldl remove d

/-- `EventDedupe.size`. -/
def size (d : EventDedupe) : Nat :=
  d.cache.size

end EventDedupe

/-! ## PriorityQueue (`src/queue/priority.ts`) -/

inductive EventPriority where
  | high
  | normal
  | low
deriving DecidableEq, Repr

/-- `determineEventPriority` from `src/queue/priority.ts`. -/
def determineEventPriority (event : String) : EventPriority :=
  if event ∈ ["js_error", "promise_error", "session_start", "session_end"] then
    .high
  else if event ∈ ["scroll", "page_view", "performance"] then
    .low
  else
    .normal

/-- `PriorityEvent`: the pushed payload spread together with its lane
(`{ ...event, priority }`). -/
structure PriorityEvent where
  ev : Event
  priority : EventPriority
deriving DecidableEq, Repr

structure PriorityQueue where
  high : List PriorityEvent := []
  normal : List PriorityEvent := []
  low : List PriorityEvent := []
deriving DecidableEq, Repr

namespace PriorityQueue

/-- `PriorityQueue.push`: append to the lane named by `priority`. -/
def push (q : PriorityQueue) (e : Event) (priority : EventPriority) : PriorityQueue :=
  match priority with
  | .high => { q with high := q.high ++ [⟨e, priority⟩] }
  | .normal => { q with normal := q.normal ++ [⟨e, priority⟩] }
  | .low => { q with low := q.low ++ [⟨e, priority⟩] }

/-- `PriorityQueue.pop`: shift from `high`, else `normal`, else `low`. -/
def pop (q : PriorityQueue) : Option PriorityEvent × PriorityQueue :=
  match q.high with
  | e :: t => (some e, { q with high := t })
  | [] =>
    match q.normal with
    | e :: t => (some e, { q with normal := t })
    | [] =>
      match q.low with
      | e :: t => (some e, { q with low := t })
      | [] => (none, q)

/-- `PriorityQueue.size`. -/
def size (q : PriorityQueue) : Nat :=
  q.high.length + q.normal.length + q.low.length

/-- `PriorityQueue.isEmpty`. -/
def isEmpty (q : PriorityQueue) : Bool :=
  q.size = 0

/-- `PriorityQueue.getBatch`: the `while (batch.length < size && !this.isEmpty())`
loop, which pops exactly one event per iteration; modelled by recursion on
the remaining room in the batch. -/
def getBatch (n : Nat) (q : PriorityQueue) : List PriorityEvent × PriorityQueue :=
  match n with
  | 0 => ([], q)
  | n + 1 =>
    if q.isEmpty then ([], q)
    else
      match q.pop with
      | (some e, q1) =>
        let r := getBatch n q1
        (e :: r.1, r.2)
      | (none, q1) => ([], q1)

/-- All three lanes concatenated in drain order. -/
def flat (q : PriorityQueue) : List PriorityEvent :=
  q.high ++ q.normal ++ q.low

end PriorityQueue

/-! ## Constants (`src/queue/constants.ts`) -/

namespace QueueConstants

def DEFAULT_BATCH_SIZE : Nat := 20
def DEFAULT_BATCH_INTERVAL : Rat := 1000
def MAX_BATCH_SIZE : Nat := 50
def MIN_BATCH_SIZE : Nat := 5
def MAX_BATCH_INTERVAL : Rat := 3000
def MIN_BATCH_INTERVAL : Rat := 200
def QUEUE_PRESSURE_HIGH : Rat := 7 / 10
def QUEUE_PRESSURE_VERY_HIGH : Rat := 9 / 10
def QUEUE_PRESSURE_LOW : Rat := 1 / 5
def QUEUE_PRESSURE_MEDIUM : Rat := 3 / 5
def BEACON_SIZE_LIMIT : Nat := 65536
def SMALL_DATA_THRESHOLD : Nat := 1024
def MAX_RETRY_COUNT : Nat := 5
def MAX_CLEANUP_COUNT : Nat := 10
def DEDUPE_CACHE_MAX_SIZE : Nat := 10000

end QueueConstants

/-! ## Sender (`src/queue/sender.ts`) -/

inductive SendStrategy where
  | beacon
  | fetch
  | xhr
deriving DecidableEq, Repr

inductive NetworkType where
  | unknown
  | online
  | offline
  | slow
deriving DecidableEq, Repr

structure SendResult where
  success : Bool
  strategy : SendStrategy
  time : Nat
deriving DecidableEq, Repr

/-- `SendStrategySelector.select` (`src/queue/sender.ts`): network class
first, then body-size thresholds; falls through to `fetch`. -/
def selectStrategy (networkType : NetworkType) (bodySize : Nat) : SendStrategy :=
  if networkType = .offline then .beacon
  else if networkType = .slow then .fetch
  else if QueueConstants.BEACON_SIZE_LIMIT < bodySize then .fetch
  else if bodySize < QueueConstants.SMALL_DATA_THRESHOLD then .beacon
  else .fetch

/-- Environment of one `Sender.send` call: whether we are in a browser,
the (cached) network class `networkManager.getType()` reports, the
outcome each transport primitive would produce if attempted (availability
of `sendBeacon`/`fetch`/`XMLHttpRequest` is folded into the outcome, as
each helper returns `false` when its API is missing), and the elapsed
wall-clock time `Date.now() - startTime` of the browser path. -/
structure SendEnv where
  isBrowser : Bool
  networkType : NetworkType
  beaconOk : Bool
  fetchOk : Bool
  xhrOk : Bool
  elapsed : Nat
deriving DecidableEq, Repr

/-- `Sender.send`, returning the `SendResult` and the list of transport
mechanisms actually attempted, in order.  Outside a browser it returns
`{ success: false, strategy: "fetch", time: 0 }` without attempting any
mechanism.  In a browser it runs the selected strategy's branch and the
fallback cascade exactly as written: the `beacon` branch tries beacon
then fetch; afterwards, `if (strategy === "fetch" || !success)` tries
fetch then XHR.  The returned `strategy` field is the *selected*
strategy in all cases. -/
def senderSend (env : SendEnv) (bodySize : Nat) : SendResult × List SendStrategy :=
  if env.isBrowser = false then
    ({ success := false, strategy := .fetch, time := 0 }, [])
  else
    let strategy := selectStrategy env.networkType bodySize
    let step1 : Bool × List SendStrategy :=
      if strategy = .beacon then
        if env.beaconOk then (true, [.beacon])
        else (env.fetchOk, [.beacon, .fetch])
      else (false, [])
    let step2 : Bool × List SendStrategy :=
      if strategy = .fetch ∨ step1.1 = false then
        if env.fetchOk then (true, [.fetch])
        else (env.xhrOk, [.fetch, .xhr])
      else (step1.1, [])
    ({ success := step2.1, strategy := strategy, time := env.elapsed },
      step1.2 ++ step2.2)

/-! ## Offline store (`src/db.ts`, `DexieStorage`)

The Dexie table `offlineEvents` is keyed by `id`; `bulkAdd` fails for a
record whose key already exists (the surrounding `try/catch` swallows the
error, keeping the non-conflicting records).  `add` goes through an
in-memory write buffer that is flushed to the table when it reaches 100
records, when the 5s write timer fires, or on `forceFlush`.  `all` reads
the table only (never the buffer); `clear` clears the table only. -/

structure OfflineDB where
  table : List Event
  buffer : List Event
deriving DecidableEq, Repr

namespace OfflineDB

def WRITE_BUFFER_SIZE : Nat := 100

/-- `Table.bulkAdd`: insert each record whose primary key (`id`) is not
already present; duplicates fail individually and are dropped. -/
def bulkAdd (table : List Event) (events : List Event) : List Event :=
  events.foldl
    (fun t e => if t.any (fun x => x.id = e.id) then t else t ++ [e]) table

/-- `DexieStorage.flushBuffer`. -/
def flushBuffer (db : OfflineDB) : OfflineDB :=
  if db.buffer.length = 0 then db
  else { table := bulkAdd db.table db.buffer, buffer := [] }

/-- `DexieStorage.add`: buffer the events; flush immediately when the
buffer reaches `WRITE_BUFFER_SIZE`, otherwise leave them for the write
timer (`scheduleFlush`) or a later `forceFlush`. -/
def add (db : OfflineDB) (events : List Event) : OfflineDB :=
  let db1 : OfflineDB := { db with buffer := db.buffer ++ events }
  if WRITE_BUFFER_SIZE ≤ db1.buffer.length then db1.flushBuffer else db1

/-- `DexieStorage.all`: `db.offlineEvents.toArray()` — the table only. -/
def all (db : OfflineDB) : List Event :=
  db.table

/-- `DexieStorage.delete`: `bulkDelete` by primary key. -/
def deleteIds (db : OfflineDB) (ids : List String) : OfflineDB :=
  { db with table := db.table.filter (fun e => ¬ ids.contains e.id) }

/-- `DexieStorage.clear`: clears the table (the write buffer is untouched). -/
def clear (db : OfflineDB) : OfflineDB :=
  { db with table := [] }

end OfflineDB

/-! ## QueueManager (`src/queue/queue.ts`) -/

structure QueueStats where
  totalEvents : Nat
  sendSuccessCount : Nat
  sendFailCount : Nat
  averageSendTime : Rat
  lastSendTime : Nat
deriving DecidableEq, Repr

structure QueueConfig where
  maxQueueSize : Nat
  batchSize : Nat
  batchInterval : Rat
  retryCount : Nat
  retryInterval : Rat
  offlineEnabled : Bool
deriving DecidableEq, Repr

/-- The queue manager's data state (timer handles and the 1s pressure
cache are omitted: in every synchronous flow modelled here the cache is
either freshly invalidated by `push` or was set in the same tick, so the
cached and the fresh value coincide). -/
structure QMState where
  queue : List Event
  priorityQueue : PriorityQueue
  dedupe : EventDedupe
  stats : QueueStats
  config : Option QueueConfig
deriving DecidableEq, Repr

namespace QMState

/-- The constructor state, after `init(config)`. -/
def initial (config : Option QueueConfig) : QMState where
  queue := []
  priorityQueue := {}
  dedupe := EventDedupe.empty QueueConstants.DEDUPE_CACHE_MAX_SIZE
  stats := { totalEvents := 0, sendSuccessCount := 0, sendFailCount := 0,
             averageSendTime := 0, lastSendTime := 0 }
  config := config

/-- `calculatePressure`: `queue.length / maxQueueSize` (0 with no config).
JS division by zero yields `NaN`/`Infinity` for `maxQueueSize = 0`; `Rat`
division by zero yields 0 — the theorems below assume `1 ≤ maxQueueSize`
wherever the branch taken could differ. -/
def calculatePressure (s : QMState) : Rat :=
  match s.config with
  | none => 0
  | some cfg => (s.queue.length : Rat) / (cfg.maxQueueSize : Rat)

/-- The pressure-adjusted batch size before the final
`Math.min(batchSize, this.queue.length)` cap: shrink by 20% above the
medium watermark (floor, min 5), grow by 20% below the low watermark
(ceil, max 50).  `Math.floor(bs * 0.8)` and `Math.ceil(bs * 1.2)` are
`(4 * bs) / 5` and `(6 * bs + 4) / 5` in exact arithmetic. -/
def dynamicBatchCandidate (cfg : QueueConfig) (pressure : Rat) : Nat :=
  if QueueConstants.QUEUE_PRESSURE_MEDIUM < pressure then
    max ((4 * cfg.batchSize) / 5) QueueConstants.MIN_BATCH_SIZE
  else if pressure < QueueConstants.QUEUE_PRESSURE_LOW then
    min ((6 * cfg.batchSize + 4) / 5) QueueConstants.MAX_BATCH_SIZE
  else
    cfg.batchSize

/-- `getDynamicBatchSize`. -/
def getDynamicBatchSize (s : QMState) : Nat :=
  match s.config with
  | none => QueueConstants.DEFAULT_BATCH_SIZE
  | some cfg => min (dynamicBatchCandidate cfg s.calculatePressure) s.queue.length

/-- The pressure-adjusted flush interval: halve above the medium
watermark (min 200), multiply by 1.5 below the low watermark (max 3000). -/
def dynamicIntervalOf (cfg : QueueConfig) (pressure : Rat) : Rat :=
  if QueueConstants.QUEUE_PRESSURE_MEDIUM < pressure then
    max (cfg.batchInterval * (1 / 2)) QueueConstants.MIN_BATCH_INTERVAL
  else if pressure < QueueConstants.QUEUE_PRESSURE_LOW then
    min (cfg.batchInterval * (3 / 2)) QueueConstants.MAX_BATCH_INTERVAL
  else
    cfg.batchInterval

/-- `getDynamicInterval`. -/
def getDynamicInterval (s : QMState) : Rat :=
  match s.config with
  | none => QueueConstants.DEFAULT_BATCH_INTERVAL
  | some cfg => dynamicIntervalOf cfg s.calculatePressure

/-- The number of oldest entries `handleQueueFull` evicts:
1 by default, `min(Math.ceil(len * 0.05), 5)` above the high watermark,
`min(Math.ceil(len * QUEUE_CLEANUP_RATIO), MAX_CLEANUP_COUNT)` above the
very-high watermark (the cleanup fraction is 0.1). -/
def removeCountOf (s : QMState) : Nat :=
  let pressure := s.calculatePressure
  if QueueConstants.QUEUE_PRESSURE_VERY_HIGH < pressure then
    min ((s.queue.length + 9) / 10) QueueConstants.MAX_CLEANUP_COUNT
  else if QueueConstants.QUEUE_PRESSURE_HIGH < pressure then
    min ((s.queue.length + 19) / 20) 5
  else
    1

/-- `handleQueueFull`: splice `removeCount` entries off the *front* of
the plain queue and remove their identities from the deduplicator.  The
priority lanes are not touched. -/
def handleQueueFull (s : QMState) : QMState :=
  match s.config with
  | none => s
  | some _ =>
    let rc := s.removeCountOf
    { s with
      queue := s.queue.drop rc
      dedupe := s.dedupe.removeBatch (s.queue.take rc) }

/-- The part of `flush()` before `await sender.send(...)` (after its
early-return guards): pull a batch from the priority queue, collect its
ids, split the plain queue by id membership, and drop the batch from the
deduplicator.  Returns the new state and the in-flight batch. -/
def flushCore (s : QMState) : QMState × List Event :=
  let batchSize := s.getDynamicBatchSize
  let r := PriorityQueue.getBatch batchSize s.priorityQueue
  let batchIds := r.1.map (fun pe => pe.ev.id)
  let batch := s.queue.filter (fun e => batchIds.contains e.id)
  ({ s with
      queue := s.queue.filter (fun e => ¬ batchIds.contains e.id)
      priorityQueue := r.2
      dedupe := s.dedupe.removeBatch batch },
    batch)

/-- `flush()` up to the `await`, including the early-return guards
(`!this.config || this.queue.length === 0`). -/
def flushSync (s : QMState) : QMState × List Event :=
  match s.config with
  | none => (s, [])
  | some _ => if s.queue.length = 0 then (s, []) else s.flushCore

/-- `push(event)`: dedupe gate, config-less fast path, capacity
eviction, insertion into the plain queue / dedupe / stats / priority
lane, then either an immediate `flush()` (pressure above the high
watermark — only its synchronous part changes the state before `push`
returns) or a delayed `schedule()` (timer only, no data change). -/
def push (e : Event) (s : QMState) : QMState :=
  if s.dedupe.existsEvent e then s
  else
    match s.config with
    | none => { s with queue := s.queue ++ [e], dedupe := s.dedupe.add e }
    | some cfg =>
      let s1 := if cfg.maxQueueSize ≤ s.queue.length then s.handleQueueFull else s
      let s2 : QMState :=
        { s1 with
          queue := s1.queue ++ [e]
          dedupe := s1.dedupe.add e
          stats := { s1.stats with totalEvents := s1.stats.totalEvents + 1 }
          priorityQueue := s1.priorityQueue.push e (determineEventPriority e.event) }
      if QueueConstants.QUEUE_PRESSURE_HIGH < s2.calculatePressure then
        s2.flushSync.1
      else s2

/-- `updateStats(sendTime, success)`. -/
def updateStats (sendTime : Rat) (success : Bool) (now : Nat)
    (st : QueueStats) : QueueStats :=
  let st1 := { st with lastSendTime := now }
  let st2 :=
    if success then { st1 with sendSuccessCount := st1.sendSuccessCount + 1 }
    else { st1 with sendFailCount := st1.sendFailCount + 1 }
  let totalSends := st2.sendSuccessCount + st2.sendFailCount
  if 0 < totalSends then
    { st2 with averageSendTime :=
        (st2.averageSendTime * ((totalSends : Rat) - 1) + sendTime) / (totalSends : Rat) }
  else st2

/-- What a failed send leads to: nothing, persistence to the offline
store, or a single retry timer carrying a delay and the failed batch. -/
inductive FailureAction where
  | nothing
  | persistOffline (batch : List Event)
  | scheduleRetry (delay : Rat) (batch : List Event)
deriving DecidableEq, Repr

/-- `handleSendFailure(batch)`, called by `flush` after `updateStats`
has already counted the failure: with offline mode enabled in a browser
the batch goes to the offline store; otherwise, if `retryCount > 0`, one
retry is scheduled after
`retryInterval * 2 ** (stats.sendFailCount % MAX_RETRY_COUNT)`. -/
def handleSendFailure (isBrowser : Bool) (s : QMState)
    (batch : List Event) : FailureAction :=
  match s.config with
  | none => .nothing
  | some cfg =>
    if cfg.offlineEnabled = true ∧ isBrowser = true then .persistOffline batch
    else if 0 < cfg.retryCount then
      .scheduleRetry
        (cfg.retryInterval * 2 ^ (s.stats.sendFailCount % QueueConstants.MAX_RETRY_COUNT))
        batch
    else .nothing

/-- The body of the retry timer: `this.queue.unshift(...batch)` and
`batch.forEach((event) => this.dedupe.add(event))` (the priority lanes
are not touched; `schedule()` only arms a timer). -/
def retryFire (s : QMState) (batch : List Event) : QMState :=
  { s with
    queue := batch ++ s.queue
    dedupe := batch.foldl EventDedupe.add s.dedupe }

/-- `restoreOfflineEvents()`: read all offline records, keep those whose
composite key is not already in the in-memory queue, delete exactly those
from the store by id, unshift them onto the plain queue and add them to
the deduplicator; if every record was a duplicate, clear the store.  The
priority lanes are not touched. -/
def restoreOfflineEvents (isBrowser : Bool) (s : QMState)
    (db : OfflineDB) : QMState × OfflineDB :=
  if isBrowser = false then (s, db)
  else
    let offlineEvents := db.all
    if offlineEvents.length = 0 then (s, db)
    else
      let queueKeys := s.queue.map generateEventKey
      let eventsToAdd :=
        offlineEvents.filter (fun e => ¬ queueKeys.contains (generateEventKey e))
      if 0 < eventsToAdd.length then
        ({ s with
            queue := eventsToAdd ++ s.queue
            dedupe := eventsToAdd.foldl EventDedupe.add s.dedupe },
          db.deleteIds (eventsToAdd.map (fun e => e.id)))
      else (s, db.clear)

/-- The outcome of one complete `flush()` call. -/
structure FlushOutcome where
  state : QMState
  db : OfflineDB
  result : Option SendResult
  action : FailureAction
deriving Repr

/-- One complete `flush()` run, resumed through its `await` points with
the send outcome computed from `env`: early-return guards, `flushCore`,
`sender.send` (on the batch serialised to `serializeSize batch` bytes),
`updateStats`, then `handleSendSuccess` (force-flush and clear the
offline store, browser only) or `handleSendFailure` (persist the batch
offline, or schedule a retry).  The empty plugin registry makes the
`beforeSend`/`afterSend` chains the identity / a no-op. -/
def flushRun (env : SendEnv) (serializeSize : List Event → Nat) (now : Nat)
    (s : QMState) (db : OfflineDB) : FlushOutcome :=
  match s.config with
  | none => { state := s, db := db, result := none, action := .nothing }
  | some _ =>
    if s.queue.length = 0 then
      { state := s, db := db, result := none, action := .nothing }
    else
      let r := s.flushCore
      let sendResult := (senderSend env (serializeSize r.2)).1
      let s2 :=
        { r.1 with
          stats := updateStats (sendResult.time : Rat) sendResult.success now r.1.stats }
      if sendResult.success then
        { state := s2
          db := if env.isBrowser then db.flushBuffer.clear else db
          result := some sendResult
          action := .nothing }
      else
        match handleSendFailure env.isBrowser s2 r.2 with
        | .persistOffline b =>
          { state := s2, db := db.add b, result := some sendResult,
            action := .persistOffline b }
        | a =>
          { state := s2, db := db, result := some sendResult, action := a }

end QMState

end NodeTrace

namespace NodeTrace

/-! ## Concrete fixtures used by counterexamples and witnesses -/

/-- A small configuration with `maxQueueSize = 3` (the spec's example
scenario), other fields at their defaults. -/
def cfg3 : QueueConfig :=
  { maxQueueSize := 3, batchSize := 20, batchInterval := 1000,
    retryCount := 0, retryInterval := 1000, offlineEnabled := false }

/-- Like `cfg3` but with offline mode enabled and retries. -/
def cfgOff : QueueConfig :=
  { maxQueueSize := 3, batchSize := 20, batchInterval := 1000,
    retryCount := 3, retryInterval := 1000, offlineEnabled := true }

def eA : Event := ⟨"1", "a", 1⟩
def eB : Event := ⟨"2", "b", 1⟩
def eC : Event := ⟨"3", "c", 1⟩
def eD : Event := ⟨"4", "d", 1⟩

/-- The state after `push(A); push(B); push(C); push(D)` on a fresh
manager configured with `cfg3`. -/
def s4 : QMState :=
  [eA, eB, eC, eD].foldl (fun s e => QMState.push e s) (QMState.initial (some cfg3))

end NodeTrace

namespace NodeTrace

/-! ## C1 — duplicate push is a silent no-op -/

/-- C1: if an event's composite identity `(id, event, timestamp)` is
currently present in the deduplicator, `QueueManager.push` returns at the
dedupe gate and leaves the whole state — plain queue, priority lanes,
dedupe cache, and stats — unchanged, so a second push of an identity that
is still queued leaves exactly the one queued record. -/
theorem push_duplicate_is_silent_noop (s : QMState) (e : Event)
    (h : s.dedupe.existsEvent e = true) :
    QMState.push e s = s := by
  unfold QMState.push
  rw [h]
  rfl

/-- A state whose queue and deduplicator hold exactly `eA`. -/
def dupState : QMState :=
  { QMState.initial (some cfg3) with
    queue := [eA]
    priorityQueue := PriorityQueue.push {} eA .normal
    dedupe := (EventDedupe.empty QueueConstants.DEDUPE_CACHE_MAX_SIZE).add eA }

/-- Witness for `push_duplicate_is_silent_noop` at a concrete state. -/
theorem push_duplicate_is_silent_noop_witness :
    dupState.dedupe.existsEvent eA = true ∧ QMState.push eA dupState = dupState :=
  ⟨by decide, push_duplicate_is_silent_noop dupState eA (by decide)⟩

end NodeTrace

namespace NodeTrace

/-! ## C9 — what the bounded dedupe cache actually does -/

/-- A capacity-2 deduplicator holding A then B. -/
def dedupe2 : EventDedupe := ((EventDedupe.empty 2).add eA).add eB

/-- C9 counterexample: with capacity 2 holding A then B (in that
insertion order), a hit `exists(A)` — which per the claim refreshes A's
recency, making B the least-recently-touched key — followed by `add(C)`
at capacity evicts A, not B.  `exists` goes through `Map.has`, which
never touches recency, and eviction removes the head of the insertion
order. -/
theorem dedupe_exists_does_not_refresh_recency :
    dedupe2.existsEvent eA = true
    ∧ (dedupe2.add eC).existsEvent eA = false
    ∧ (dedupe2.add eC).existsEvent eB = true := by
  decide

/-- Pointwise characterisation of a key missing from the cache. -/
theorem LRUCache.has_eq_false_iff (c : LRUCache V) (k : String) :
    c.has k = false ↔ ∀ p ∈ c.entries, p.1 ≠ k := by
  simp [LRUCache.has]

/-- C9 amended: on `add` at capacity the cache evicts exactly the entry
at the *front of the Map's insertion order* (reads never reorder: the
deduplicator's `exists` uses `Map.has`, and `Map.set` of an existing key
keeps its position); only `LRUCache.get` — which the deduplicator never
calls — refreshes recency by deleting and re-appending the key. -/
theorem lru_eviction_is_insertion_ordered
    (c : LRUCache Bool) (k0 : String) (v0 : Bool) (rest : List (String × Bool))
    (k : String) (v : Bool)
    (he : c.entries = (k0, v0) :: rest)
    (hfull : c.maxSize ≤ c.entries.length)
    (hnew : c.has k = false)
    (hnd : (c.entries.map Prod.fst).Nodup) :
    (c.set k v).entries = rest ++ [(k, v)]
    ∧ ((c.get k0).2).entries = rest ++ [(k0, v0)] := by
  have hnd1 : k0 ∉ rest.map Prod.fst := by
    rw [he] at hnd
    simp only [List.map_cons, List.nodup_cons] at hnd
    exact hnd.1
  have hk0rest : ∀ p ∈ rest, p.1 ≠ k0 := by
    intro p hp hpk
    exact hnd1 (List.mem_map.mpr ⟨p, hp, hpk⟩)
  have hdel : (c.deleteKey k0).entries = rest := by
    rw [LRUCache.deleteKey, he]
    simp only [List.filter_cons, decide_eq_true_eq]
    rw [if_neg (by simp)]
    apply List.filter_eq_self.mpr
    intro p hp
    simpa using hk0rest p hp
  have hkrest : ∀ p ∈ rest, p.1 ≠ k := by
    intro p hp
    exact (LRUCache.has_eq_false_iff c k).mp hnew p (he ▸ List.mem_cons_of_mem _ hp)
  have hhask : (c.deleteKey k0).has k = false := by
    rw [LRUCache.has_eq_false_iff, hdel]
    exact hkrest
  have hhask0 : (c.deleteKey k0).has k0 = false := by
    rw [LRUCache.has_eq_false_iff, hdel]
    exact hk0rest
  constructor
  · rw [LRUCache.set]
    simp only [if_pos hfull, he, List.head?_cons]
    rw [← he]
    simp [LRUCache.mapSet, hhask, hdel, if_pos hfull]
  · have hfind : c.entries.find? (fun p => decide (p.1 = k0)) = some (k0, v0) := by
      rw [he]
      simp [List.find?_cons]
    have hget : c.get k0 = (some v0, (c.deleteKey k0).mapSet k0 v0) := by
      rw [LRUCache.get, hfind]
    rw [hget]
    simp [LRUCache.mapSet, hhask0, hdel]

/-- Witness for `lru_eviction_is_insertion_ordered` on the concrete
capacity-2 cache holding A then B. -/
theorem lru_eviction_witness :
    (dedupe2.cache.set "3_c_1" true).entries = [("2_b_1", true)] ++ [("3_c_1", true)]
    ∧ ((dedupe2.cache.get "1_a_1").2).entries = [("2_b_1", true)] ++ [("1_a_1", true)] :=
  lru_eviction_is_insertion_ordered dedupe2.cache "1_a_1" true [("2_b_1", true)]
    "3_c_1" true (by decide) (by decide) (by decide) (by decide)

end NodeTrace

namespace NodeTrace

/-! ## C7 — which mechanism the send result records -/

/-- A browser environment in which the selected mechanism (beacon, for a
small payload on a good network) always fails and the fetch fallback
always succeeds. -/
def envBeaconFails : SendEnv :=
  { isBrowser := true, networkType := .online, beaconOk := false,
    fetchOk := true, xhrOk := false, elapsed := 5 }

/-- C7 counterexample: with the selected beacon mechanism failing and
the fetch fallback succeeding, `Sender.send` resolves with
`success = true` but its result records `beacon` — the originally
*selected* mechanism — although the mechanism that ultimately answered
(the last attempted one) was `fetch`.  No `recordResult`/per-mechanism
history exists anywhere in the sender. -/
theorem send_records_selected_not_fallback :
    (senderSend envBeaconFails 10).1.success = true
    ∧ (senderSend envBeaconFails 10).1.strategy = SendStrategy.beacon
    ∧ (senderSend envBeaconFails 10).2.getLast? = some SendStrategy.fetch
    ∧ SendStrategy.beacon ≠ SendStrategy.fetch := by
  decide

/-- C7 amended: in a browser the result's `strategy` field always equals
the originally selected mechanism, whatever the fallback cascade did;
when the selected mechanism is beacon, beacon fails, and fetch succeeds,
the send still resolves successfully and the attempt trace ends at the
fetch fallback. -/
theorem send_strategy_is_selected (env : SendEnv) (n : Nat)
    (hb : env.isBrowser = true) :
    (senderSend env n).1.strategy = selectStrategy env.networkType n
    ∧ (selectStrategy env.networkType n = .beacon → env.beaconOk = false →
        env.fetchOk = true →
        (senderSend env n).1.success = true
        ∧ (senderSend env n).2 = [.beacon, .fetch]) := by
  rw [senderSend]
  rw [if_neg (by rw [hb]; simp)]
  constructor
  · rfl
  · intro hsel hbk hft
    simp only [hsel, hbk, hft]
    simp

/-- Witness for `send_strategy_is_selected` in `envBeaconFails`. -/
theorem send_strategy_is_selected_witness :
    (senderSend envBeaconFails 10).1.strategy = selectStrategy .online 10
    ∧ (senderSend envBeaconFails 10).1.success = true :=
  ⟨(send_strategy_is_selected envBeaconFails 10 rfl).1,
   ((send_strategy_is_selected envBeaconFails 10 rfl).2 (by decide) rfl rfl).1⟩

end NodeTrace

namespace NodeTrace

/-! ## C4 — the plain-queue/priority-lane invariant does not hold -/

/-- C4: restoring a single offline event on a freshly configured manager
puts the record into the plain queue (and the deduplicator) but into no
priority lane: `restoreOfflineEvents` never calls `priorityQueue.push`.
The batch-selection in `flush` draws ids from the lanes only, so such a
record can never be selected for sending.  The same one-sided mutation
happens in `handleQueueFull` (evicted records stay in their lane) and in
the retry re-insertion. -/
theorem restore_breaks_queue_lane_invariant :
    (QMState.restoreOfflineEvents true (QMState.initial (some cfgOff))
        ⟨[eA], []⟩).1.queue = [eA]
    ∧ (QMState.restoreOfflineEvents true (QMState.initial (some cfgOff))
        ⟨[eA], []⟩).1.priorityQueue = ({} : PriorityQueue) := by
  decide

end NodeTrace

namespace NodeTrace

/-! ## C10 — outside a browser every send fails immediately -/

/-- A failed-send `updateStats` bumps exactly the failure counter. -/
theorem updateStats_fail_counts (t : Rat) (now : Nat) (st : QueueStats) :
    (QMState.updateStats t false now st).sendFailCount = st.sendFailCount + 1 := by
  rw [QMState.updateStats]
  simp only [Bool.false_eq_true, if_false]
  split <;> rfl

/-- `flushCore` never touches the statistics. -/
theorem flushCore_stats (s : QMState) : s.flushCore.1.stats = s.stats := rfl

/-- In a non-browser environment `handleSendFailure` never takes the
offline-persistence path (`offlineEnabled && isBrowser()` is false). -/
theorem handleSendFailure_nonbrowser_no_persist (s : QMState)
    (batch : List Event) (b : List Event) :
    QMState.handleSendFailure false s batch ≠ .persistOffline b := by
  rw [QMState.handleSendFailure]
  cases s.config with
  | none => simp
  | some cfg =>
    simp only
    rw [if_neg (by simp)]
    split <;> simp

/-- C10: outside a browser `Sender.send` returns
`{ success: false, strategy: "fetch", time: 0 }` for every input without
attempting any transport mechanism, and consequently every `flush` with a
non-empty queue takes the send-failure path: the failure counter is
incremented, the offline store is untouched (neither the success-path
clear nor, without a browser, the offline persistence), and the recorded
send result is the constant failure. -/
theorem nonbrowser_send_always_fails (env : SendEnv)
    (hb : env.isBrowser = false) :
    (∀ n : Nat, senderSend env n =
        ({ success := false, strategy := .fetch, time := 0 }, []))
    ∧ (∀ (sz : List Event → Nat) (now : Nat) (s : QMState) (db : OfflineDB)
        (cfg : QueueConfig), s.config = some cfg → s.queue ≠ [] →
        (QMState.flushRun env sz now s db).state.stats.sendFailCount
            = s.stats.sendFailCount + 1
        ∧ (QMState.flushRun env sz now s db).db = db
        ∧ (QMState.flushRun env sz now s db).result
            = some { success := false, strategy := .fetch, time := 0 }) := by
  have hsend : ∀ n : Nat, senderSend env n =
      ({ success := false, strategy := .fetch, time := 0 }, []) := by
    intro n
    rw [senderSend, if_pos hb]
  refine ⟨hsend, ?_⟩
  intro sz now s db cfg hc hq
  have hlen : ¬ s.queue.length = 0 := by
    simpa [List.length_eq_zero] using hq
  rw [QMState.flushRun, hc]
  simp only [if_neg hlen]
  rw [hsend]
  simp only
  rw [if_neg (by simp)]
  cases hact : QMState.handleSendFailure env.isBrowser
      { s.flushCore.1 with
        stats := QMState.updateStats ((0 : Nat) : Rat) false now s.flushCore.1.stats }
      s.flushCore.2 with
  | nothing =>
    exact ⟨updateStats_fail_counts _ now s.stats, rfl, rfl⟩
  | persistOffline b =>
    rw [hb] at hact
    exact absurd hact (handleSendFailure_nonbrowser_no_persist _ _ b)
  | scheduleRetry d b =>
    exact ⟨updateStats_fail_counts _ now s.stats, rfl, rfl⟩

/-- A one-event queue state used by several witnesses. -/
def oneState : QMState :=
  { QMState.initial (some cfgOff) with
    queue := [eA]
    priorityQueue := PriorityQueue.push {} eA .normal
    dedupe := (EventDedupe.empty QueueConstants.DEDUPE_CACHE_MAX_SIZE).add eA }

/-- A non-browser environment. -/
def envNode : SendEnv :=
  { isBrowser := false, networkType := .unknown, beaconOk := false,
    fetchOk := false, xhrOk := false, elapsed := 0 }

/-- Witness for `nonbrowser_send_always_fails` on a concrete state. -/
theorem nonbrowser_send_always_fails_witness :
    senderSend envNode 7 = ({ success := false, strategy := .fetch, time := 0 }, [])
    ∧ (QMState.flushRun envNode (fun _ => 7) 0 oneState ⟨[], []⟩).state.stats.sendFailCount
        = oneState.stats.sendFailCount + 1 :=
  ⟨(nonbrowser_send_always_fails envNode rfl).1 7,
   ((nonbrowser_send_always_fails envNode rfl).2 (fun _ => 7) 0 oneState ⟨[], []⟩
      cfgOff rfl (by decide)).1⟩

end NodeTrace

namespace NodeTrace

/-! ## Helper lemmas on cache insertion without eviction -/

/-- A key is present exactly when it occurs among the entry keys. -/
theorem LRUCache.has_iff_mem_keys (c : LRUCache V) (k : String) :
    c.has k = true ↔ k ∈ c.entries.map Prod.fst := by
  rw [LRUCache.has]
  simp only [List.any_eq_true, decide_eq_true_eq, List.mem_map]

/-- Key list after a raw `Map.set`: unchanged on an update, the new key
appended on an insert. -/
theorem LRUCache.mapSet_keys (c : LRUCache V) (k : String) (v : V) :
    (c.mapSet k v).entries.map Prod.fst =
      if c.has k = true then c.entries.map Prod.fst
      else c.entries.map Prod.fst ++ [k] := by
  rw [LRUCache.mapSet]
  by_cases h : c.has k = true
  · rw [if_pos h, if_pos h]
    simp only [List.map_map]
    apply List.map_congr_left
    intro p _
    by_cases hp : p.1 = k
    · simp [hp]
    · simp [hp]
  · rw [if_neg h, if_neg h]
    simp

/-- Membership after a raw `Map.set`. -/
theorem LRUCache.has_mapSet (c : LRUCache V) (k : String) (v : V) (k0 : String) :
    (c.mapSet k v).has k0 = true ↔ (k0 = k ∨ c.has k0 = true) := by
  rw [LRUCache.has_iff_mem_keys, LRUCache.has_iff_mem_keys, LRUCache.mapSet_keys]
  by_cases h : c.has k = true
  · rw [if_pos h]
    constructor
    · exact Or.inr
    · rintro (rfl | hh)
      · exact (LRUCache.has_iff_mem_keys c k0).mp h
      · exact hh
  · rw [if_neg h]
    simp only [List.mem_append, List.mem_singleton]
    tauto

/-- A raw `Map.set` grows the entry list by at most one. -/
theorem LRUCache.mapSet_length (c : LRUCache V) (k : String) (v : V) :
    (c.mapSet k v).entries.length ≤ c.entries.length + 1 := by
  rw [LRUCache.mapSet]
  split
  · simp
  · simp

/-- Below capacity, `LRUCache.set` is a raw `Map.set` (no eviction). -/
theorem LRUCache.set_no_evict (c : LRUCache V) (k : String) (v : V)
    (h : c.entries.length < c.maxSize) :
    c.set k v = c.mapSet k v := by
  rw [LRUCache.set]
  rw [if_neg (not_le.mpr h)]

/-- Adding a batch of events to a deduplicator that has room for all of
them makes every batch key (and every previously present key) present,
because no eviction can fire during the fold. -/
theorem EventDedupe.foldl_add_has (batch : List Event) :
    ∀ (d : EventDedupe),
      d.cache.entries.length + batch.length ≤ d.cache.maxSize →
      ∀ k : String, (d.cache.has k = true ∨ k ∈ batch.map generateEventKey) →
        ((batch.foldl EventDedupe.add d).cache.has k = true) := by
  induction batch with
  | nil =>
    intro d _ k hk
    rcases hk with hk | hk
    · exact hk
    · simp at hk
  | cons e rest ih =>
    intro d hroom k hk
    have hlt : d.cache.entries.length < d.cache.maxSize := by
      simp only [List.length_cons] at hroom
      omega
    have hset : (d.add e).cache = d.cache.mapSet (generateEventKey e) true := by
      rw [EventDedupe.add]
      rw [LRUCache.set_no_evict _ _ _ hlt]
    have hlen : (d.add e).cache.entries.length ≤ d.cache.entries.length + 1 := by
      rw [hset]
      exact LRUCache.mapSet_length _ _ _
    have hmax : (d.add e).cache.maxSize = d.cache.maxSize := by
      rw [hset, LRUCache.mapSet]
      split <;> rfl
    have hroom1 : (d.add e).cache.entries.length + rest.length ≤ (d.add e).cache.maxSize := by
      rw [hmax]
      simp only [List.length_cons] at hroom
      omega
    rw [List.foldl_cons]
    apply ih (d.add e) hroom1 k
    rcases hk with hk | hk
    · left
      rw [hset]
      exact (LRUCache.has_mapSet _ _ _ _).mpr (Or.inr hk)
    · simp only [List.map_cons, List.mem_cons] at hk
      rcases hk with hk | hk
      · left
        rw [hset]
        exact (LRUCache.has_mapSet _ _ _ _).mpr (Or.inl hk)
      · right
        exact hk

end NodeTrace

namespace NodeTrace

/-! ## C6 — bounded exponential retry backoff -/

/-- C6: when the offline-persistence path is not taken (offline mode
disabled, or not in a browser) and `retryCount > 0`, `handleSendFailure`
schedules exactly one retry with delay
`retryInterval * 2 ** (sendFailCount % MAX_RETRY_COUNT)` — where
`sendFailCount` is the cumulative failure counter, already incremented
by `updateStats` for the current failure — so the delay is bounded by
`retryInterval * 16`; when the retry timer fires, the failed batch is
unshifted onto the front of the plain queue and every batch event is
re-added to the deduplicator. -/
theorem retry_backoff_and_requeue
    (isB : Bool) (s : QMState) (batch : List Event) (cfg : QueueConfig)
    (hc : s.config = some cfg)
    (hoff : ¬ (cfg.offlineEnabled = true ∧ isB = true))
    (hr : 0 < cfg.retryCount)
    (hri : 0 ≤ cfg.retryInterval)
    (hroom : s.dedupe.cache.entries.length + batch.length ≤ s.dedupe.cache.maxSize) :
    QMState.handleSendFailure isB s batch
      = .scheduleRetry
          (cfg.retryInterval * 2 ^ (s.stats.sendFailCount % QueueConstants.MAX_RETRY_COUNT))
          batch
    ∧ cfg.retryInterval * 2 ^ (s.stats.sendFailCount % QueueConstants.MAX_RETRY_COUNT)
        ≤ cfg.retryInterval * 16
    ∧ (QMState.retryFire s batch).queue = batch ++ s.queue
    ∧ ∀ e ∈ batch, (QMState.retryFire s batch).dedupe.existsEvent e = true := by
  refine ⟨?_, ?_, rfl, ?_⟩
  · rw [QMState.handleSendFailure, hc]
    simp only
    rw [if_neg hoff, if_pos hr]
  · have h5 : s.stats.sendFailCount % QueueConstants.MAX_RETRY_COUNT ≤ 4 := by
      simp only [QueueConstants.MAX_RETRY_COUNT]
      omega
    calc cfg.retryInterval * 2 ^ (s.stats.sendFailCount % QueueConstants.MAX_RETRY_COUNT)
        ≤ cfg.retryInterval * 2 ^ 4 := by
          apply mul_le_mul_of_nonneg_left _ hri
          exact pow_le_pow_right₀ (by norm_num) h5
      _ = cfg.retryInterval * 16 := by norm_num
  · intro e he
    rw [QMState.retryFire, EventDedupe.existsEvent]
    apply EventDedupe.foldl_add_has batch s.dedupe hroom
    right
    exact List.mem_map.mpr ⟨e, he, rfl⟩

/-- Witness for `retry_backoff_and_requeue` in a non-browser state with
one queued event and a one-event failed batch. -/
theorem retry_backoff_and_requeue_witness :
    QMState.handleSendFailure false oneState [eB]
      = .scheduleRetry
          (cfgOff.retryInterval *
            2 ^ (oneState.stats.sendFailCount % QueueConstants.MAX_RETRY_COUNT))
          [eB]
    ∧ (QMState.retryFire oneState [eB]).queue = [eB] ++ oneState.queue :=
  ⟨(retry_backoff_and_requeue false oneState [eB] cfgOff rfl (by simp)
      (by decide) (by decide) (by decide)).1,
   (retry_backoff_and_requeue false oneState [eB] cfgOff rfl (by simp)
      (by decide) (by decide) (by decide)).2.2.1⟩

end NodeTrace

namespace NodeTrace

/-! ## C2 — capacity bound, front eviction, and the example scenario -/

/-- Deleting a key makes it absent. -/
theorem LRUCache.has_deleteKey_self (c : LRUCache V) (k : String) :
    (c.deleteKey k).has k = false := by
  rw [LRUCache.has_eq_false_iff]
  intro p hp
  rw [LRUCache.deleteKey] at hp
  simp only [List.mem_filter, decide_eq_true_eq] at hp
  simpa using hp.2

/-- Deleting some key never makes another key reappear. -/
theorem LRUCache.has_deleteKey_mono (c : LRUCache V) (k k' : String)
    (h : c.has k = false) : (c.deleteKey k').has k = false := by
  rw [LRUCache.has_eq_false_iff] at h ⊢
  intro p hp
  rw [LRUCache.deleteKey] at hp
  simp only [List.mem_filter] at hp
  exact h p hp.1

/-- `removeBatch` keeps absent keys absent. -/
theorem EventDedupe.removeBatch_has_false (evs : List Event) :
    ∀ (d : EventDedupe) (k : String), d.cache.has k = false →
      (d.removeBatch evs).cache.has k = false := by
  induction evs with
  | nil => exact fun d k h => h
  | cons e rest ih =>
    intro d k h
    rw [EventDedupe.removeBatch, List.foldl_cons]
    exact ih (d.remove e) k (LRUCache.has_deleteKey_mono _ _ _ h)

/-- After `removeBatch(events)` none of the removed events' composite
keys remains in the deduplicator. -/
theorem EventDedupe.removeBatch_removes (evs : List Event) :
    ∀ (d : EventDedupe), ∀ e ∈ evs,
      (d.removeBatch evs).existsEvent e = false := by
  induction evs with
  | nil =>
    intro d e he
    simp at he
  | cons e0 rest ih =>
    intro d e he
    rw [EventDedupe.removeBatch, List.foldl_cons]
    rcases List.mem_cons.mp he with rfl | he
    · rw [EventDedupe.existsEvent]
      exact EventDedupe.removeBatch_has_false rest (d.remove e) _
        (LRUCache.has_deleteKey_self _ _)
    · exact ih (d.remove e0) e he

/-- The synchronous part of `flush` only ever removes queue entries. -/
theorem QMState.flushSync_queue_length (s : QMState) :
    s.flushSync.1.queue.length ≤ s.queue.length := by
  rw [QMState.flushSync]
  cases s.config with
  | none => exact le_refl _
  | some cfg =>
    dsimp only
    split
    · exact le_refl _
    · exact List.length_filter_le _ _

/-- `handleQueueFull` removes at least one entry from a non-empty queue. -/
theorem QMState.removeCountOf_pos (s : QMState) (h : 1 ≤ s.queue.length) :
    1 ≤ s.removeCountOf := by
  rw [QMState.removeCountOf]
  split
  · simp only [QueueConstants.MAX_CLEANUP_COUNT]
    omega
  · split
    · omega
    · omega

/-- `push` keeps a configured queue within its capacity. -/
theorem QMState.push_queue_length_le (s : QMState) (cfg : QueueConfig) (e : Event)
    (hc : s.config = some cfg) (hmax : 1 ≤ cfg.maxQueueSize)
    (hlen : s.queue.length ≤ cfg.maxQueueSize) :
    (QMState.push e s).queue.length ≤ cfg.maxQueueSize := by
  rw [QMState.push]
  by_cases hd : s.dedupe.existsEvent e = true
  · rw [if_pos hd]
    exact hlen
  · rw [if_neg hd, hc]
    dsimp only
    by_cases hful : cfg.maxQueueSize ≤ s.queue.length
    · simp only [if_pos hful]
      have hrc : 1 ≤ s.removeCountOf := QMState.removeCountOf_pos s (by omega)
      have hq : s.handleQueueFull.queue.length + 1 ≤ cfg.maxQueueSize := by
        rw [QMState.handleQueueFull, hc]
        simp only [List.length_drop]
        omega
      split
      · refine le_trans (QMState.flushSync_queue_length _) ?_
        simpa using hq
      · simpa using hq
    · simp only [if_neg hful]
      have hq : s.queue.length + 1 ≤ cfg.maxQueueSize := by omega
      split
      · refine le_trans (QMState.flushSync_queue_length _) ?_
        simpa using hq
      · simpa using hq

unseal Rat.mul Rat.add Rat.sub Rat.inv Rat.ofScientific in
/-- C2 counterexample for the example scenario: with `maxQueueSize = 3`
and default batch sizing, pushing A, B, C, D does *not* leave the queue
holding {B, C, D}: the third push raises the pressure to 1.0 > 0.7,
which triggers an immediate flush that synchronously drains A, B, C into
an in-flight batch, so after the fourth push the queue holds exactly
[D]. -/
theorem push_scenario_leaves_single_event :
    s4.queue = [eD] ∧ ¬ s4.queue = [eB, eC, eD] := by
  decide

unseal Rat.mul Rat.add Rat.sub Rat.inv Rat.ofScientific in
/-- C2 amended: (1) a configured manager's queue never exceeds
`maxQueueSize` across pushes; (2) capacity eviction removes entries from
the front of the plain queue, oldest first, and removes every evicted
identity from the deduplicator (so re-pushing an evicted event is
admitted); (3) in the `maxQueueSize = 3` scenario the pushes A, B, C, D
leave the queue holding exactly [D] — A, B, C having been drained into
an in-flight batch by the high-pressure flush during the third push —
and pushing A again succeeds, appending it to the queue. -/
theorem capacity_bound_and_front_eviction :
    (∀ (s : QMState) (cfg : QueueConfig) (e : Event),
        s.config = some cfg → 1 ≤ cfg.maxQueueSize →
        s.queue.length ≤ cfg.maxQueueSize →
        (QMState.push e s).queue.length ≤ cfg.maxQueueSize)
    ∧ (∀ (s : QMState) (cfg : QueueConfig), s.config = some cfg →
        (QMState.handleQueueFull s).queue = s.queue.drop s.removeCountOf
        ∧ ∀ e ∈ s.queue.take s.removeCountOf,
            (QMState.handleQueueFull s).dedupe.existsEvent e = false)
    ∧ (s4.queue = [eD] ∧ (QMState.push eA s4).queue = [eD, eA]) := by
  refine ⟨?_, ?_, by decide⟩
  · exact fun s cfg e hc hmax hlen => QMState.push_queue_length_le s cfg e hc hmax hlen
  · intro s cfg hc
    rw [QMState.handleQueueFull, hc]
    exact ⟨rfl, fun e he => EventDedupe.removeBatch_removes _ _ e he⟩

/-- A configured state at capacity (3 queued events). -/
def full3 : QMState :=
  { QMState.initial (some cfg3) with
    queue := [eA, eC, eD]
    priorityQueue := ((PriorityQueue.push {} eA .normal).push eC .normal).push eD .normal
    dedupe := (((EventDedupe.empty QueueConstants.DEDUPE_CACHE_MAX_SIZE).add eA).add
        eC).add eD }

unseal Rat.mul Rat.add Rat.sub Rat.inv Rat.ofScientific in
/-- Witness for `capacity_bound_and_front_eviction` at a concrete
at-capacity state. -/
theorem capacity_bound_witness :
    full3.queue.length ≤ 3 ∧ (QMState.push eB full3).queue.length ≤ 3 :=
  ⟨by decide,
   capacity_bound_and_front_eviction.1 full3 cfg3 eB rfl (by decide) (by decide)⟩

end NodeTrace

namespace NodeTrace

/-! ## C8 — backpressure scaling -/

/-- A default-like configuration with `maxQueueSize = 100`. -/
def cfg8 : QueueConfig :=
  { maxQueueSize := 100, batchSize := 20, batchInterval := 1000,
    retryCount := 3, retryInterval := 1000, offlineEnabled := false }

/-- The i-th distinct normal-priority event. -/
def evi (i : Nat) : Event := ⟨toString i, "e", 0⟩

/-- The state reached by pushing `n` distinct normal-priority events
into a fresh manager configured with `cfg8` (for `n ≤ 50` the pressure
stays at most 0.5, so no push triggers the high-pressure flush). -/
def pushedState (n : Nat) : QMState :=
  ((List.range n).map evi).foldl (fun s e => QMState.push e s)
    (QMState.initial (some cfg8))

set_option maxRecDepth 100000 in
unseal Rat.mul Rat.add Rat.sub Rat.inv Rat.ofScientific in
/-- C8 counterexample: two managers with identical configuration, one
with 5 queued events (pressure 0.05) and one with 50 (pressure 0.5).
The higher-pressure instance computes dynamic batch size 20, the
lower-pressure one only 5, because `getDynamicBatchSize` caps the
pressure-adjusted candidate at `queue.length` — the low-pressure queue
has fewer events than its grown candidate.  So the higher-pressure
instance selects a *larger* batch size. -/
theorem higher_pressure_can_select_larger_batch :
    (pushedState 5).config = (pushedState 50).config
    ∧ (pushedState 5).calculatePressure < (pushedState 50).calculatePressure
    ∧ (pushedState 50).getDynamicBatchSize = 20
    ∧ (pushedState 5).getDynamicBatchSize = 5 := by
  decide

/-- The pressure-adjusted interval is antitone in pressure when the
configured interval lies between the interval floor and ceiling. -/
theorem dynamicIntervalOf_antitone (cfg : QueueConfig) (p1 p2 : Rat)
    (hi1 : QueueConstants.MIN_BATCH_INTERVAL ≤ cfg.batchInterval)
    (hi2 : cfg.batchInterval ≤ QueueConstants.MAX_BATCH_INTERVAL)
    (hp : p1 ≤ p2) :
    QMState.dynamicIntervalOf cfg p2 ≤ QMState.dynamicIntervalOf cfg p1 := by
  simp only [QueueConstants.MIN_BATCH_INTERVAL] at hi1
  simp only [QueueConstants.MAX_BATCH_INTERVAL] at hi2
  rw [QMState.dynamicIntervalOf, QMState.dynamicIntervalOf]
  simp only [QueueConstants.QUEUE_PRESSURE_MEDIUM, QueueConstants.QUEUE_PRESSURE_LOW,
    QueueConstants.MIN_BATCH_INTERVAL, QueueConstants.MAX_BATCH_INTERVAL]
  have hmax1 : max (cfg.batchInterval * (1 / 2)) 200 ≤ cfg.batchInterval :=
    max_le (by linarith) hi1
  have hmin1 : cfg.batchInterval ≤ min (cfg.batchInterval * (3 / 2)) 3000 :=
    le_min (by linarith) hi2
  have hq1 : (1 : Rat) / 5 < 3 / 5 := by norm_num
  split_ifs <;> first
    | rfl
    | linarith [hmax1, hmin1]

/-- The pressure-adjusted batch-size candidate (before the queue-length
cap) is antitone in pressure when the configured batch size lies between
the batch floor and ceiling. -/
theorem dynamicBatchCandidate_antitone (cfg : QueueConfig) (p1 p2 : Rat)
    (hb1 : QueueConstants.MIN_BATCH_SIZE ≤ cfg.batchSize)
    (hb2 : cfg.batchSize ≤ QueueConstants.MAX_BATCH_SIZE)
    (hp : p1 ≤ p2) :
    QMState.dynamicBatchCandidate cfg p2 ≤ QMState.dynamicBatchCandidate cfg p1 := by
  simp only [QueueConstants.MIN_BATCH_SIZE] at hb1
  simp only [QueueConstants.MAX_BATCH_SIZE] at hb2
  rw [QMState.dynamicBatchCandidate, QMState.dynamicBatchCandidate]
  simp only [QueueConstants.QUEUE_PRESSURE_MEDIUM, QueueConstants.QUEUE_PRESSURE_LOW,
    QueueConstants.MIN_BATCH_SIZE, QueueConstants.MAX_BATCH_SIZE]
  split_ifs <;> first
    | rfl
    | omega
    | (exfalso; linarith)

/-- C8 amended: within the configured floors and ceilings the claim
holds for the flush interval, and for the batch size only *before* the
final `Math.min(batchSize, queue.length)` cap: a higher-pressure
instance computes a flush interval ≤ and a pre-cap batch-size candidate
≤ those of a lower-pressure instance with the same configuration.  (The
returned batch size is additionally capped by the current queue length,
which `higher_pressure_can_select_larger_batch` shows can reverse the
comparison.) -/
theorem backpressure_monotonic_within_bounds :
    (∀ (s1 s2 : QMState) (cfg : QueueConfig),
        s1.config = some cfg → s2.config = some cfg →
        QueueConstants.MIN_BATCH_INTERVAL ≤ cfg.batchInterval →
        cfg.batchInterval ≤ QueueConstants.MAX_BATCH_INTERVAL →
        s1.calculatePressure ≤ s2.calculatePressure →
        s2.getDynamicInterval ≤ s1.getDynamicInterval)
    ∧ (∀ (cfg : QueueConfig) (p1 p2 : Rat),
        QueueConstants.MIN_BATCH_SIZE ≤ cfg.batchSize →
        cfg.batchSize ≤ QueueConstants.MAX_BATCH_SIZE →
        p1 ≤ p2 →
        QMState.dynamicBatchCandidate cfg p2 ≤ QMState.dynamicBatchCandidate cfg p1) := by
  constructor
  · intro s1 s2 cfg hc1 hc2 hi1 hi2 hp
    rw [QMState.getDynamicInterval, QMState.getDynamicInterval, hc1, hc2]
    exact dynamicIntervalOf_antitone cfg _ _ hi1 hi2 hp
  · exact fun cfg p1 p2 hb1 hb2 hp =>
      dynamicBatchCandidate_antitone cfg p1 p2 hb1 hb2 hp

set_option maxRecDepth 100000 in
unseal Rat.mul Rat.add Rat.sub Rat.inv Rat.ofScientific in
/-- Witness for `backpressure_monotonic_within_bounds` on the two
concrete push-generated states. -/
theorem backpressure_monotonic_witness :
    (pushedState 50).getDynamicInterval ≤ (pushedState 5).getDynamicInterval
    ∧ QMState.dynamicBatchCandidate cfg8 1 ≤ QMState.dynamicBatchCandidate cfg8 0 :=
  ⟨backpressure_monotonic_within_bounds.1 (pushedState 5) (pushedState 50) cfg8
      (by decide) (by decide) (by decide) (by decide) (by decide),
   backpressure_monotonic_within_bounds.2 cfg8 0 1 (by decide) (by decide) (by decide)⟩

end NodeTrace

namespace NodeTrace

/-! ## C3 — strict lane ordering of `getBatch` -/

/-- Lane order: high before normal before low. -/
def laneRank : EventPriority → Nat
  | .high => 0
  | .normal => 1
  | .low => 2

/-- The priority event a `push(event, priority)` stores. -/
def toPE (x : Event × EventPriority) : PriorityEvent := ⟨x.1, x.2⟩

/-- Interleaved pushes into a fresh priority queue. -/
def pushAll (evs : List (Event × EventPriority)) : PriorityQueue :=
  evs.foldl (fun q x => q.push x.1 x.2) {}

theorem PriorityQueue.size_eq_flat_length (q : PriorityQueue) :
    q.size = q.flat.length := by
  rw [PriorityQueue.size, PriorityQueue.flat]
  simp
  omega

theorem PriorityQueue.isEmpty_iff_flat_nil (q : PriorityQueue) :
    q.isEmpty = true ↔ q.flat = [] := by
  rw [PriorityQueue.isEmpty]
  simp [PriorityQueue.size_eq_flat_length, List.length_eq_zero]

theorem PriorityQueue.pop_fst (q : PriorityQueue) : q.pop.1 = q.flat.head? := by
  obtain ⟨h, n, l⟩ := q
  cases h <;> cases n <;> cases l <;> rfl

theorem PriorityQueue.pop_snd_flat (q : PriorityQueue) :
    q.pop.2.flat = q.flat.tail := by
  obtain ⟨h, n, l⟩ := q
  cases h <;> cases n <;> cases l <;> rfl

/-- The batch drained by `getBatch n` is the first `n` events of the
lanes in high-normal-low order. -/
theorem PriorityQueue.getBatch_fst (n : Nat) :
    ∀ q : PriorityQueue, (PriorityQueue.getBatch n q).1 = q.flat.take n := by
  induction n with
  | zero => intro q; rfl
  | succ m ih =>
    intro q
    rw [PriorityQueue.getBatch]
    by_cases he : q.isEmpty = true
    · rw [if_pos he, (PriorityQueue.isEmpty_iff_flat_nil q).mp he]
      rfl
    · rw [if_neg he]
      have hne : q.flat ≠ [] := fun hh => he ((PriorityQueue.isEmpty_iff_flat_nil q).mpr hh)
      obtain ⟨e, t, hft⟩ : ∃ e t, q.flat = e :: t := by
        cases hf : q.flat with
        | nil => exact absurd hf hne
        | cons e t => exact ⟨e, t, rfl⟩
      have h1 : q.pop.1 = some e := by rw [PriorityQueue.pop_fst, hft]; rfl
      have h2 : q.pop.2.flat = t := by rw [PriorityQueue.pop_snd_flat, hft]; rfl
      rcases hp : q.pop with ⟨o, q1⟩
      rw [hp] at h1 h2
      cases o with
      | none => exact absurd h1 (by simp)
      | some e' =>
        have he' : e' = e := by simpa using h1
        subst he'
        simp only [hft, List.take_succ_cons]
        simp only [ih q1, h2]

theorem pushAll_high (evs : List (Event × EventPriority)) :
    ∀ q : PriorityQueue,
      (evs.foldl (fun q x => q.push x.1 x.2) q).high
        = q.high ++ (evs.filter (fun x => x.2 = .high)).map toPE := by
  induction evs with
  | nil => intro q; simp
  | cons x rest ih =>
    intro q
    rw [List.foldl_cons, ih, List.filter_cons]
    rcases x with ⟨e, p⟩
    cases p <;> simp [PriorityQueue.push, toPE]

theorem pushAll_normal (evs : List (Event × EventPriority)) :
    ∀ q : PriorityQueue,
      (evs.foldl (fun q x => q.push x.1 x.2) q).normal
        = q.normal ++ (evs.filter (fun x => x.2 = .normal)).map toPE := by
  induction evs with
  | nil => intro q; simp
  | cons x rest ih =>
    intro q
    rw [List.foldl_cons, ih, List.filter_cons]
    rcases x with ⟨e, p⟩
    cases p <;> simp [PriorityQueue.push, toPE]

theorem pushAll_low (evs : List (Event × EventPriority)) :
    ∀ q : PriorityQueue,
      (evs.foldl (fun q x => q.push x.1 x.2) q).low
        = q.low ++ (evs.filter (fun x => x.2 = .low)).map toPE := by
  induction evs with
  | nil => intro q; simp
  | cons x rest ih =>
    intro q
    rw [List.foldl_cons, ih, List.filter_cons]
    rcases x with ⟨e, p⟩
    cases p <;> simp [PriorityQueue.push, toPE]

end NodeTrace

namespace NodeTrace

/-- If the first `n` entries of `A ++ B` contain an event of a priority
that no event of `A` has, then `A` lies entirely within those first `n`
entries. -/
theorem take_append_full (A B : List PriorityEvent) (n : Nat) (p2 : EventPriority)
    (hA : ∀ x ∈ A, ¬ x.priority = p2)
    (hex : ∃ pe ∈ (A ++ B).take n, pe.priority = p2) :
    (A ++ B).take n = A ++ B.take (n - A.length) := by
  obtain ⟨pe, hpe, hp2⟩ := hex
  rw [List.take_append_eq_append_take] at hpe ⊢
  by_cases hn : A.length ≤ n
  · rw [List.take_of_length_le hn]
  · exfalso
    have h0 : n - A.length = 0 := by omega
    rw [h0] at hpe
    simp only [List.take_zero, List.append_nil] at hpe
    exact hA pe (List.mem_of_mem_take hpe) hp2

/-- C3: for every interleaved push sequence and every `n`, `getBatch(n)`
returns `min(n, size())` events, ordered so that every high-priority
event precedes every normal-priority event and every normal-priority
event precedes every low-priority event; within each lane the batch is a
prefix of the original push order; and the drain is lane-complete:
whenever the batch contains any event of some lane, it contains *every*
currently-queued event of each strictly higher-priority lane (in push
order) — so all queued high-priority events precede any returned normal
one, and all queued normal-priority events precede any returned low one. -/
theorem priority_batch_ordered (evs : List (Event × EventPriority)) (n : Nat) :
    (PriorityQueue.getBatch n (pushAll evs)).1.length = min n (pushAll evs).size
    ∧ (PriorityQueue.getBatch n (pushAll evs)).1.Pairwise
        (fun a b => laneRank a.priority ≤ laneRank b.priority)
    ∧ (∀ p : EventPriority,
        List.IsPrefix
          ((PriorityQueue.getBatch n (pushAll evs)).1.filter
            (fun pe => pe.priority = p))
          ((evs.filter (fun x => x.2 = p)).map toPE))
    ∧ (∀ p1 p2 : EventPriority, laneRank p1 < laneRank p2 →
        (∃ pe ∈ (PriorityQueue.getBatch n (pushAll evs)).1, pe.priority = p2) →
        (PriorityQueue.getBatch n (pushAll evs)).1.filter
            (fun pe => pe.priority = p1)
          = (evs.filter (fun x => x.2 = p1)).map toPE) := by
  have hb := PriorityQueue.getBatch_fst n (pushAll evs)
  have hH : (pushAll evs).high = (evs.filter (fun x => x.2 = .high)).map toPE := by
    simpa using pushAll_high evs {}
  have hN : (pushAll evs).normal = (evs.filter (fun x => x.2 = .normal)).map toPE := by
    simpa using pushAll_normal evs {}
  have hL : (pushAll evs).low = (evs.filter (fun x => x.2 = .low)).map toPE := by
    simpa using pushAll_low evs {}
  have hmemH : ∀ pe ∈ (pushAll evs).high, pe.priority = .high := by
    rw [hH]
    intro pe hm
    obtain ⟨x, hx, rfl⟩ := List.mem_map.mp hm
    simpa [toPE] using List.of_mem_filter hx
  have hmemN : ∀ pe ∈ (pushAll evs).normal, pe.priority = .normal := by
    rw [hN]
    intro pe hm
    obtain ⟨x, hx, rfl⟩ := List.mem_map.mp hm
    simpa [toPE] using List.of_mem_filter hx
  have hmemL : ∀ pe ∈ (pushAll evs).low, pe.priority = .low := by
    rw [hL]
    intro pe hm
    obtain ⟨x, hx, rfl⟩ := List.mem_map.mp hm
    simpa [toPE] using List.of_mem_filter hx
  have hflat : (pushAll evs).flat.Pairwise
      (fun a b => laneRank a.priority ≤ laneRank b.priority) := by
    rw [PriorityQueue.flat]
    rw [List.pairwise_append]
    refine ⟨?_, ?_, ?_⟩
    · rw [List.pairwise_append]
      refine ⟨?_, ?_, ?_⟩
      · exact List.pairwise_of_forall_mem_list
          (fun a ha b hb => by rw [hmemH a ha, hmemH b hb])
      · exact List.pairwise_of_forall_mem_list
          (fun a ha b hb => by rw [hmemN a ha, hmemN b hb])
      · intro a ha b hb
        rw [hmemH a ha, hmemN b hb]
        decide
    · exact List.pairwise_of_forall_mem_list
        (fun a ha b hb => by rw [hmemL a ha, hmemL b hb])
    · intro a ha b hb
      rw [hmemL b hb]
      rcases List.mem_append.mp ha with ha | ha
      · rw [hmemH a ha]
        decide
      · rw [hmemN a ha]
        decide
  refine ⟨?_, ?_, ?_, ?_⟩
  · rw [hb, List.length_take, PriorityQueue.size_eq_flat_length]
  · rw [hb]
    exact List.Pairwise.sublist (List.take_sublist n _) hflat
  · intro p
    have hpre : ((pushAll evs).flat.take n).filter (fun pe => pe.priority = p)
        <+: (pushAll evs).flat.filter (fun pe => pe.priority = p) :=
      (List.take_prefix n _).filter _
    have hfe : (pushAll evs).flat.filter (fun pe => pe.priority = p)
        = (evs.filter (fun x => x.2 = p)).map toPE := by
      rw [PriorityQueue.flat, List.filter_append, List.filter_append]
      cases p with
      | high =>
        have h1 : (pushAll evs).high.filter (fun pe => pe.priority = EventPriority.high)
            = (pushAll evs).high :=
          List.filter_eq_self.mpr (fun a ha => by simp [hmemH a ha])
        have h2 : (pushAll evs).normal.filter (fun pe => pe.priority = EventPriority.high)
            = [] :=
          List.filter_eq_nil_iff.mpr (fun a ha => by simp [hmemN a ha])
        have h3 : (pushAll evs).low.filter (fun pe => pe.priority = EventPriority.high)
            = [] :=
          List.filter_eq_nil_iff.mpr (fun a ha => by simp [hmemL a ha])
        rw [h1, h2, h3, hH]
        simp
      | normal =>
        have h1 : (pushAll evs).high.filter (fun pe => pe.priority = EventPriority.normal)
            = [] :=
          List.filter_eq_nil_iff.mpr (fun a ha => by simp [hmemH a ha])
        have h2 : (pushAll evs).normal.filter (fun pe => pe.priority = EventPriority.normal)
            = (pushAll evs).normal :=
          List.filter_eq_self.mpr (fun a ha => by simp [hmemN a ha])
        have h3 : (pushAll evs).low.filter (fun pe => pe.priority = EventPriority.normal)
            = [] :=
          List.filter_eq_nil_iff.mpr (fun a ha => by simp [hmemL a ha])
        rw [h1, h2, h3, hN]
        simp
      | low =>
        have h1 : (pushAll evs).high.filter (fun pe => pe.priority = EventPriority.low)
            = [] :=
          List.filter_eq_nil_iff.mpr (fun a ha => by simp [hmemH a ha])
        have h2 : (pushAll evs).normal.filter (fun pe => pe.priority = EventPriority.low)
            = [] :=
          List.filter_eq_nil_iff.mpr (fun a ha => by simp [hmemN a ha])
        have h3 : (pushAll evs).low.filter (fun pe => pe.priority = EventPriority.low)
            = (pushAll evs).low :=
          List.filter_eq_self.mpr (fun a ha => by simp [hmemL a ha])
        rw [h1, h2, h3, hL]
        simp
    rw [hb]
    exact hfe ▸ hpre
  · intro p1 p2 hrank hex
    rw [hb] at hex ⊢
    have hmemHN : ∀ x ∈ (pushAll evs).high ++ (pushAll evs).normal,
        ¬ x.priority = EventPriority.low := by
      intro x hx
      rcases List.mem_append.mp hx with h | h
      · rw [hmemH x h]
        simp
      · rw [hmemN x h]
        simp
    cases p1 with
    | high =>
      cases p2 with
      | high => simp [laneRank] at hrank
      | normal =>
        have hassoc : (pushAll evs).flat
            = (pushAll evs).high ++ ((pushAll evs).normal ++ (pushAll evs).low) := by
          rw [PriorityQueue.flat, List.append_assoc]
        rw [hassoc] at hex ⊢
        have hA : ∀ x ∈ (pushAll evs).high, ¬ x.priority = EventPriority.normal := by
          intro x hx
          rw [hmemH x hx]
          simp
        rw [take_append_full _ _ n _ hA hex]
        rw [List.filter_append]
        have h1 : (pushAll evs).high.filter (fun pe => pe.priority = EventPriority.high)
            = (pushAll evs).high :=
          List.filter_eq_self.mpr (fun a ha => by simp [hmemH a ha])
        have h2 : (((pushAll evs).normal ++ (pushAll evs).low).take
            (n - (pushAll evs).high.length)).filter
              (fun pe => pe.priority = EventPriority.high) = [] :=
          List.filter_eq_nil_iff.mpr (fun a ha => by
            rcases List.mem_append.mp (List.mem_of_mem_take ha) with h | h
            · simp [hmemN a h]
            · simp [hmemL a h])
        rw [h1, h2, hH, List.append_nil]
      | low =>
        rw [PriorityQueue.flat] at hex ⊢
        rw [take_append_full _ _ n _ hmemHN hex]
        rw [List.filter_append, List.filter_append]
        have h1 : (pushAll evs).high.filter (fun pe => pe.priority = EventPriority.high)
            = (pushAll evs).high :=
          List.filter_eq_self.mpr (fun a ha => by simp [hmemH a ha])
        have h2 : (pushAll evs).normal.filter (fun pe => pe.priority = EventPriority.high)
            = [] :=
          List.filter_eq_nil_iff.mpr (fun a ha => by simp [hmemN a ha])
        have h3 : ((pushAll evs).low.take
            (n - ((pushAll evs).high ++ (pushAll evs).normal).length)).filter
              (fun pe => pe.priority = EventPriority.high) = [] :=
          List.filter_eq_nil_iff.mpr (fun a ha => by
            simp [hmemL a (List.mem_of_mem_take ha)])
        rw [h1, h2, h3, hH, List.append_nil, List.append_nil]
    | normal =>
      cases p2 with
      | high => simp [laneRank] at hrank
      | normal => simp [laneRank] at hrank
      | low =>
        rw [PriorityQueue.flat] at hex ⊢
        rw [take_append_full _ _ n _ hmemHN hex]
        rw [List.filter_append, List.filter_append]
        have h1 : (pushAll evs).high.filter (fun pe => pe.priority = EventPriority.normal)
            = [] :=
          List.filter_eq_nil_iff.mpr (fun a ha => by simp [hmemH a ha])
        have h2 : (pushAll evs).normal.filter (fun pe => pe.priority = EventPriority.normal)
            = (pushAll evs).normal :=
          List.filter_eq_self.mpr (fun a ha => by simp [hmemN a ha])
        have h3 : ((pushAll evs).low.take
            (n - ((pushAll evs).high ++ (pushAll evs).normal).length)).filter
              (fun pe => pe.priority = EventPriority.normal) = [] :=
          List.filter_eq_nil_iff.mpr (fun a ha => by
            simp [hmemL a (List.mem_of_mem_take ha)])
        rw [h1, h2, h3, hN, List.nil_append, List.append_nil]
    | low =>
      cases p2 with
      | high => simp [laneRank] at hrank
      | normal => simp [laneRank] at hrank
      | low => simp [laneRank] at hrank

end NodeTrace

namespace NodeTrace

/-! ## C5 — offline persistence and restore round trip -/

/-- `contains` on string lists is membership. -/
theorem string_contains_iff (l : List String) (a : String) :
    l.contains a = true ↔ a ∈ l := by
  simp [List.contains_iff_exists_mem_beq, beq_iff_eq, eq_comm]

/-- The subset of offline records `restoreOfflineEvents` re-admits:
those whose composite key is not already in the in-memory queue. -/
def restoreToAdd (s : QMState) (db : OfflineDB) : List Event :=
  db.all.filter
    (fun e => ¬ (s.queue.map generateEventKey).contains (generateEventKey e))

/-- In every branch of `restoreOfflineEvents`, the resulting queue is the
re-admitted records prepended to the old queue. -/
theorem restore_queue_eq (s : QMState) (db : OfflineDB) :
    (QMState.restoreOfflineEvents true s db).1.queue
      = restoreToAdd s db ++ s.queue := by
  rw [QMState.restoreOfflineEvents]
  rw [if_neg (by simp)]
  dsimp only
  by_cases h0 : db.all.length = 0
  · rw [if_pos h0]
    have hnil : db.all = [] := List.length_eq_zero.mp h0
    rw [restoreToAdd, hnil]
    rfl
  · rw [if_neg h0]
    by_cases h1 : 0 < (db.all.filter
        (fun e => ¬ (s.queue.map generateEventKey).contains (generateEventKey e))).length
    · rw [if_pos h1]
      rfl
    · rw [if_neg h1]
      have hnil : db.all.filter
          (fun e => ¬ (s.queue.map generateEventKey).contains (generateEventKey e)) = [] :=
        List.length_eq_zero.mp (by omega)
      rw [restoreToAdd, hnil]
      rfl

/-- In every branch of `restoreOfflineEvents`, the resulting deduplicator
is the old one with the re-admitted records added. -/
theorem restore_dedupe_eq (s : QMState) (db : OfflineDB) :
    (QMState.restoreOfflineEvents true s db).1.dedupe
      = (restoreToAdd s db).foldl EventDedupe.add s.dedupe := by
  rw [QMState.restoreOfflineEvents]
  rw [if_neg (by simp)]
  dsimp only
  by_cases h0 : db.all.length = 0
  · rw [if_pos h0]
    have hnil : db.all = [] := List.length_eq_zero.mp h0
    rw [restoreToAdd, hnil]
    rfl
  · rw [if_neg h0]
    by_cases h1 : 0 < (db.all.filter
        (fun e => ¬ (s.queue.map generateEventKey).contains (generateEventKey e))).length
    · rw [if_pos h1]
      rfl
    · rw [if_neg h1]
      have hnil : db.all.filter
          (fun e => ¬ (s.queue.map generateEventKey).contains (generateEventKey e)) = [] :=
        List.length_eq_zero.mp (by omega)
      rw [restoreToAdd, hnil]
      rfl

/-- Every record that survives a `restoreOfflineEvents` in the offline
store is a duplicate of something already queued: its composite key is in
the pre-restore queue. -/
theorem restore_db_table_dups (s : QMState) (db : OfflineDB) :
    ∀ e ∈ (QMState.restoreOfflineEvents true s db).2.table,
      generateEventKey e ∈ s.queue.map generateEventKey := by
  rw [QMState.restoreOfflineEvents]
  rw [if_neg (by simp)]
  dsimp only
  by_cases h0 : db.all.length = 0
  · rw [if_pos h0]
    intro e he
    have hnil : db.table = [] := List.length_eq_zero.mp h0
    simp [hnil] at he
  · rw [if_neg h0]
    by_cases h1 : 0 < (db.all.filter
        (fun e => ¬ (s.queue.map generateEventKey).contains (generateEventKey e))).length
    · rw [if_pos h1]
      intro e he
      rw [OfflineDB.deleteIds] at he
      simp only [List.mem_filter, decide_eq_true_eq] at he
      by_contra hk
      have hadd : e ∈ db.all.filter
          (fun e => ¬ (s.queue.map generateEventKey).contains (generateEventKey e)) := by
        apply List.mem_filter.mpr
        refine ⟨he.1, ?_⟩
        simp only [decide_eq_true_eq]
        intro hcon
        exact hk ((string_contains_iff _ _).mp hcon)
      have hid : (List.map (fun e => e.id) (db.all.filter
          (fun e => ¬ (s.queue.map generateEventKey).contains
            (generateEventKey e)))).contains e.id = true :=
        (string_contains_iff _ _).mpr (List.mem_map.mpr ⟨e, hadd, rfl⟩)
      exact he.2 hid
    · rw [if_neg h1]
      intro e he
      simp [OfflineDB.clear] at he

/-- Invoking `restoreOfflineEvents` twice in a row without an
intervening send leaves the state of the second call unchanged: every
record still in the store after the first call is a duplicate of a
queued record, so the second call re-admits nothing. -/
theorem restore_twice (s : QMState) (db : OfflineDB) :
    (QMState.restoreOfflineEvents true
        (QMState.restoreOfflineEvents true s db).1
        (QMState.restoreOfflineEvents true s db).2).1
      = (QMState.restoreOfflineEvents true s db).1 := by
  have hdups := restore_db_table_dups s db
  have hq := restore_queue_eq s db
  rw [QMState.restoreOfflineEvents]
  rw [if_neg (by simp)]
  dsimp only
  by_cases h0 : (QMState.restoreOfflineEvents true s db).2.all.length = 0
  · rw [if_pos h0]
  · rw [if_neg h0]
    have htoadd : (QMState.restoreOfflineEvents true s db).2.all.filter
        (fun e => ¬ ((QMState.restoreOfflineEvents true s db).1.queue.map
          generateEventKey).contains (generateEventKey e)) = [] := by
      apply List.filter_eq_nil_iff.mpr
      intro e he
      have hk2 : generateEventKey e
          ∈ (QMState.restoreOfflineEvents true s db).1.queue.map generateEventKey := by
        rw [hq, List.map_append]
        exact List.mem_append_right _ (hdups e he)
      simp only [decide_eq_true_eq, Decidable.not_not]
      exact (string_contains_iff _ _).mpr hk2
    rw [htoadd]
    rw [if_neg (by simp)]

/-- `bulkAdd` of records with fresh, pairwise-distinct ids appends. -/
theorem bulkAdd_append (events : List Event) :
    ∀ table : List Event,
      (∀ e ∈ events, ∀ x ∈ table, ¬ x.id = e.id) →
      (events.map Event.id).Nodup →
      OfflineDB.bulkAdd table events = table ++ events := by
  induction events with
  | nil =>
    intro table _ _
    simp [OfflineDB.bulkAdd]
  | cons e rest ih =>
    intro table hfresh hnd
    rw [OfflineDB.bulkAdd, List.foldl_cons]
    have hnomem : table.any (fun x => x.id = e.id) = false := by
      simp only [List.any_eq_false, decide_eq_true_eq]
      intro x hx
      exact hfresh e (List.mem_cons_self e rest) x hx
    rw [hnomem]
    simp only [Bool.false_eq_true, if_false]
    have hfresh1 : ∀ e1 ∈ rest, ∀ x ∈ table ++ [e], ¬ x.id = e1.id := by
      intro e1 he1 x hx
      rcases List.mem_append.mp hx with hx | hx
      · exact hfresh e1 (List.mem_cons_of_mem e he1) x hx
      · have hx' : x = e := by simpa using hx
        subst hx'
        simp only [List.map_cons, List.nodup_cons] at hnd
        intro hcon
        exact hnd.1 (hcon ▸ List.mem_map.mpr ⟨e1, he1, rfl⟩)
    have hnd1 : (rest.map Event.id).Nodup := by
      simp only [List.map_cons, List.nodup_cons] at hnd
      exact hnd.2
    have hih := ih (table ++ [e]) hfresh1 hnd1
    rw [OfflineDB.bulkAdd] at hih
    rw [hih, List.append_assoc]
    rfl

/-- `flushBuffer` moves the buffer into the table via `bulkAdd`. -/
theorem flushBuffer_table (db : OfflineDB) :
    db.flushBuffer.table = OfflineDB.bulkAdd db.table db.buffer := by
  rw [OfflineDB.flushBuffer]
  split
  · rename_i h
    have hnil : db.buffer = [] := List.length_eq_zero.mp h
    rw [hnil, OfflineDB.bulkAdd, List.foldl_nil]
  · rfl

/-- `flushBuffer` leaves the buffer empty. -/
theorem flushBuffer_buffer (db : OfflineDB) : db.flushBuffer.buffer = [] := by
  rw [OfflineDB.flushBuffer]
  split
  · rename_i h
    exact List.length_eq_zero.mp h
  · rfl

/-- Persisting a batch into a store with a clean write buffer and then
flushing the buffer performs exactly a `bulkAdd` of the batch. -/
theorem add_then_flush (db : OfflineDB) (batch : List Event)
    (hbuf : db.buffer = []) :
    ((db.add batch).flushBuffer).table = OfflineDB.bulkAdd db.table batch := by
  rw [OfflineDB.add, hbuf]
  simp only [List.nil_append]
  split
  · rw [flushBuffer_table, flushBuffer_buffer, OfflineDB.bulkAdd, List.foldl_nil]
    rw [flushBuffer_table]
  · rw [flushBuffer_table]

end NodeTrace

namespace NodeTrace

/-- C5: with offline mode enabled in a browser, a failed batch takes the
offline-persistence path, and — once the store's write buffer has been
flushed — the batch records sit in the store's table.  A subsequent
`restoreOfflineEvents()` prepends exactly the persisted records whose
composite identities are not already queued to the *front* of the queue,
re-adds them to the deduplicator, each such identity then occurs in the
queue exactly once, and a second `restoreOfflineEvents()` without an
intervening send leaves the state unchanged. -/
theorem offline_roundtrip
    (s : QMState) (cfg : QueueConfig) (db : OfflineDB) (batch : List Event)
    (hc : s.config = some cfg)
    (hoff : cfg.offlineEnabled = true)
    (hbuf : db.buffer = [])
    (hfresh : ∀ e ∈ batch, ∀ x ∈ db.table, ¬ x.id = e.id)
    (hids : (batch.map Event.id).Nodup)
    (hkeys : (((db.add batch).flushBuffer).table.map generateEventKey).Nodup)
    (hroom : s.dedupe.cache.entries.length
        + (restoreToAdd s ((db.add batch).flushBuffer)).length
          ≤ s.dedupe.cache.maxSize) :
    QMState.handleSendFailure true s batch = .persistOffline batch
    ∧ ((db.add batch).flushBuffer).table = db.table ++ batch
    ∧ (QMState.restoreOfflineEvents true s ((db.add batch).flushBuffer)).1.queue
        = restoreToAdd s ((db.add batch).flushBuffer) ++ s.queue
    ∧ (∀ e ∈ restoreToAdd s ((db.add batch).flushBuffer),
        (QMState.restoreOfflineEvents true s
          ((db.add batch).flushBuffer)).1.dedupe.existsEvent e = true)
    ∧ (∀ e ∈ ((db.add batch).flushBuffer).table,
        ¬ generateEventKey e ∈ s.queue.map generateEventKey →
        ((QMState.restoreOfflineEvents true s
            ((db.add batch).flushBuffer)).1.queue.map generateEventKey).count
          (generateEventKey e) = 1)
    ∧ (QMState.restoreOfflineEvents true
        (QMState.restoreOfflineEvents true s ((db.add batch).flushBuffer)).1
        (QMState.restoreOfflineEvents true s ((db.add batch).flushBuffer)).2).1
      = (QMState.restoreOfflineEvents true s ((db.add batch).flushBuffer)).1 := by
  refine ⟨?_, ?_, restore_queue_eq s _, ?_, ?_, restore_twice s _⟩
  · rw [QMState.handleSendFailure, hc]
    simp only
    rw [if_pos ⟨hoff, by trivial⟩]
  · rw [add_then_flush db batch hbuf]
    exact bulkAdd_append batch db.table hfresh hids
  · intro e he
    rw [restore_dedupe_eq, EventDedupe.existsEvent]
    apply EventDedupe.foldl_add_has _ _ hroom
    right
    exact List.mem_map.mpr ⟨e, he, rfl⟩
  · intro e he hk
    have hmem : e ∈ restoreToAdd s ((db.add batch).flushBuffer) := by
      rw [restoreToAdd]
      apply List.mem_filter.mpr
      refine ⟨he, ?_⟩
      simp only [decide_eq_true_eq]
      intro hcon
      exact hk ((string_contains_iff _ _).mp hcon)
    rw [restore_queue_eq, List.map_append, List.count_append]
    have c2 : ((s.queue.map generateEventKey).count (generateEventKey e)) = 0 :=
      List.count_eq_zero.mpr hk
    have hsub : List.Sublist
        ((restoreToAdd s ((db.add batch).flushBuffer)).map generateEventKey)
        (((db.add batch).flushBuffer).table.map generateEventKey) :=
      (List.filter_sublist _).map _
    have hnd : ((restoreToAdd s ((db.add batch).flushBuffer)).map
        generateEventKey).Nodup :=
      hkeys.sublist hsub
    have c1 : ((restoreToAdd s ((db.add batch).flushBuffer)).map
        generateEventKey).count (generateEventKey e) = 1 :=
      List.count_eq_one_of_mem hnd (List.mem_map.mpr ⟨e, hmem, rfl⟩)
    omega

/-- Witness for `offline_roundtrip` with an empty queue, an empty store
and the failed batch `[eA]`. -/
theorem offline_roundtrip_witness :
    QMState.handleSendFailure true (QMState.initial (some cfgOff)) [eA]
      = .persistOffline [eA]
    ∧ (QMState.restoreOfflineEvents true (QMState.initial (some cfgOff))
        ((OfflineDB.add ⟨[], []⟩ [eA]).flushBuffer)).1.queue
      = restoreToAdd (QMState.initial (some cfgOff))
          ((OfflineDB.add ⟨[], []⟩ [eA]).flushBuffer)
        ++ (QMState.initial (some cfgOff)).queue :=
  ⟨(offline_roundtrip (QMState.initial (some cfgOff)) cfgOff ⟨[], []⟩ [eA]
      rfl rfl rfl (by decide) (by decide) (by decide) (by decide)).1,
   (offline_roundtrip (QMState.initial (some cfgOff)) cfgOff ⟨[], []⟩ [eA]
      rfl rfl rfl (by decide) (by decide) (by decide) (by decide)).2.2.1⟩

end NodeTrace
